import Mathlib

/-
  Verification of the tripup-server asset and sharing subsystem.

  The Go sources under src/ are shallowly embedded below: each handler or
  helper becomes a pure Lean function over explicit inputs, with every
  downstream dependency (metadata store, object store, notification sink)
  supplied as an explicit answer or answer function, and with the list of
  external calls the code would issue returned alongside the result.
  Machine integers are modelled as Nat (uint64 arithmetic carries an
  explicit mod 2 ^ 64 where overflow is possible) and Int (Go int fields).
  The file is organised as definitions, then supporting lemmas, then the
  claim theorems with their witnesses.
-/

namespace TripUp

/-- A Go error value, abstracted to its message string. -/
abbrev GoErr := String

/-- HTTP status constants used by the handlers. -/
def statusOK : Nat := 200

def statusCreated : Nat := 201

def statusNoContent : Nat := 204

def statusBadRequest : Nat := 400

def statusInternalServerError : Nat := 500

/-- Model of the Go net/http ResponseWriter: the first WriteHeader call fixes
the status code and later calls are superfluous and ignored (documented
net/http behaviour); Write appends a chunk to the body. -/
structure Response where
  status : Option Nat
  body : List String
deriving Repr, DecidableEq

def Response.empty : Response := ⟨none, []⟩

def Response.writeHeader (r : Response) (code : Nat) : Response :=
  match r.status with
  | some _ => r
  | none => { r with status := some code }

def Response.write (r : Response) (s : String) : Response :=
  { r with body := r.body ++ [s] }

/-- One external call issued by a handler: a storage-backend call or a
metadata-store call, recorded with the arguments passed. Storage locators
are carried as character lists (see the storage section below). -/
inductive Call where
  | filesizes (remotePath : String)
  | storageDelete (remotepaths : List (List Char))
  | createAsset (uid assetID type remotePath : String)
      (createDate location duration originalFilename originalUTI : Option String)
      (pixelWidth pixelHeight : Int) (md5 key : String)
      (remotePathOrig : Option String) (totalsize : Option Nat)
  | addPathForOriginalAsset (uid assetID remotePath : String) (size : Nat)
  | dbDeleteAssets (uid : String) (assetIDs : List String)
  | shareAssets (uid groupID : String) (assetIDs assetKeys : List String)
  | unshareAssets (uid groupID : String) (assetIDs : List String)
  | getUsersInGroup (uid groupID : String)
  | notify (userIDs : List String) (kind : String)
  | getPublicInfoForUsers (uuids numbers emails : List String)
deriving Repr, DecidableEq

/-- The asset JSON payload decoded by the asset handlers (src/server.go:711).
Pixel dimensions are Go int fields, hence Int here. -/
structure Asset where
  assetID : String
  type : String
  remotePath : String
  remotePathOrig : Option String
  createDate : Option String
  location : Option String
  duration : Option String
  originalFilename : Option String
  originalUTI : Option String
  pixelWidth : Int
  pixelHeight : Int
  md5 : String
  key : String
deriving Repr, DecidableEq

/-- Message of the invalidArgError produced for the empty argument at the
given index (src/server.go:37). -/
def invalidArgErrorMsg (index : Nat) : GoErr :=
  "Required argument number " ++ toString index ++ " is an empty string"

def validateArgsNotZeroAux : Nat → List String → Option GoErr
  | _, [] => none
  | index, value :: rest =>
    if value.length = 0 then some (invalidArgErrorMsg index)
    else validateArgsNotZeroAux (index + 1) rest

/-- Model of validateArgsNotZero (src/server.go:45): the first empty string,
scanned by index, yields an invalidArgError. -/
def validateArgsNotZero (args : List String) : Option GoErr :=
  validateArgsNotZeroAux 0 args

/-- Result of a StorageClient Filesizes call, mirroring the Go multiple
return (uint64, uint64, error): both lengths are returned alongside a
possible error value. -/
structure ProbeResult where
  originalLength : Nat
  lowLength : Nat
  err : Option GoErr
deriving Repr, DecidableEq

/-- Result quadruple of createSingleAsset: the (int, error, pointer-to-uint64)
return values of the Go function plus the trace of external calls issued. -/
structure SingleAssetResult where
  httpStatus : Nat
  err : Option GoErr
  totalsize : Option Nat
  calls : List Call
deriving Repr, DecidableEq

/-- Model of createSingleAsset (src/server.go:849). The storage client answer
to Filesizes is supplied by the function probe; the metadata-store answer to
CreateAsset by createRes. As in the source, the 131072-byte floor is applied
to the probed lengths before the probe error is checked, the type tag is
defaulted to photo when empty, and the two floored uint64 lengths are summed
(uint64 addition, hence mod 2 ^ 64). -/
def createSingleAsset (a : Asset) (uid : String)
    (probe : String → ProbeResult) (createRes : Option GoErr) : SingleAssetResult :=
  match validateArgsNotZero [a.assetID, a.remotePath, a.key] with
  | some e => ⟨statusBadRequest, some e, none, []⟩
  | none =>
    if a.pixelWidth = 0 ∨ a.pixelHeight = 0 then
      ⟨statusBadRequest, some "One of the Int args has a value of 0", none, []⟩
    else
      let probePhase : Option Nat × Option GoErr × List Call :=
        match a.remotePathOrig with
        | none => (none, none, [])
        | some p =>
          let r := probe p
          let originalLength := if r.originalLength < 131072 then 131072 else r.originalLength
          let lowLength := if r.lowLength < 131072 then 131072 else r.lowLength
          match r.err with
          | some e => (none, some e, [Call.filesizes p])
          | none => (some ((originalLength + lowLength) % 2 ^ 64), none, [Call.filesizes p])
      match probePhase with
      | (_, some e, calls) => ⟨statusInternalServerError, some e, none, calls⟩
      | (totalsize, none, calls) =>
        let type := match validateArgsNotZero [a.type] with
          | some _ => "photo"
          | none => a.type
        let c := Call.createAsset uid a.assetID type a.remotePath a.createDate a.location
          a.duration a.originalFilename a.originalUTI a.pixelWidth a.pixelHeight
          a.md5 a.key a.remotePathOrig totalsize
        match createRes with
        | some e => ⟨statusInternalServerError, some e, none, calls ++ [c]⟩
        | none => ⟨statusCreated, none, totalsize, calls ++ [c]⟩

/-- Model of the value-level behaviour of Filesizes (src/storage/aws.go:55):
given the two HeadObject content lengths as int64 values, a negative length is
rejected by the defensive check (returning 0, 0 and an error, as the source
does) and otherwise the uint64 conversions of the two lengths are returned. -/
def filesizesLengths (origCL lowCL : Int) : ProbeResult :=
  if origCL < 0 then ⟨0, 0, some "content length < 0 for original asset"⟩
  else if lowCL < 0 then ⟨0, 0, some "content length < 0 for low asset"⟩
  else ⟨origCL.toNat, lowCL.toNat, none⟩

/-- The CREATE phase of patchAssets (src/server.go:798-808): items are
processed sequentially in list order and the loop breaks at the first item
whose createSingleAsset call errs, leaving the remaining items unprocessed.
Returns the external calls issued, the per-asset size results (an assoc list
in iteration order; the Go int conversion of the uint64 size is modelled
exactly, faithful below 2 ^ 63), and some (httpStatus, err) when the loop
broke at a failure. -/
def patchAssetsCreateLoop (uid : String) (probe : String → ProbeResult)
    (createRes : Asset → Option GoErr) :
    List Asset → List Call × List (String × Nat) × Option (Nat × GoErr)
  | [] => ([], [], none)
  | a :: rest =>
    let r := createSingleAsset a uid probe (createRes a)
    match r.err with
    | some e => (r.calls, [], some (r.httpStatus, e))
    | none =>
      let out := patchAssetsCreateLoop uid probe createRes rest
      let rd := match r.totalsize with
        | some n => (a.assetID, n) :: out.2.1
        | none => out.2.1
      (r.calls ++ out.1, rd, out.2.2)

/-- Model of putAssetRemotePathOriginal (src/server.go:970-1029), from the
point where the subject uid, the assetID route parameter (with the result of
its uuid parse) and the decoded payload are available, on the path where a
storage client was obtained. The storage answer is probe, the metadata-store
answer to AddPathForOriginalAsset is addRes. As in the source, the
probe-error branch writes the 500 header and logs but does not return: the
handler falls through to the metadata update. -/
def putAssetRemotePathOriginal (uid assetID : String) (assetIDValid : Bool)
    (remotepathorig : String) (probe : String → ProbeResult)
    (addRes : Option GoErr) : Response × List Call :=
  let r0 := Response.empty
  if ¬assetIDValid then
    ((r0.writeHeader statusBadRequest).write "Invalid UUID string for Asset ID", [])
  else
    match validateArgsNotZero [remotepathorig] with
    | some e => ((r0.writeHeader statusBadRequest).write e, [])
    | none =>
      let pr := probe remotepathorig
      let originalLength := if pr.originalLength < 131072 then 131072 else pr.originalLength
      let lowLength := if pr.lowLength < 131072 then 131072 else pr.lowLength
      let r1 := match pr.err with
        | some _ => r0.writeHeader statusInternalServerError
        | none => r0
      let calls := [Call.filesizes remotepathorig,
        Call.addPathForOriginalAsset uid assetID remotepathorig
          ((originalLength + lowLength) % 2 ^ 64)]
      match addRes with
      | some _ => (r1.writeHeader statusInternalServerError, calls)
      | none => (r1.writeHeader statusOK, calls)

/-- The per-asset loop of patchAssetsRemoteOriginalPaths (src/server.go:932-952);
the payload map is modelled as an assoc list (Go map iteration order is
arbitrary). A probe error breaks the loop before the metadata update for that
asset; a store error breaks it after. Returns the calls issued, the size
results and the loop error, if any. -/
def patchOriginalPathsLoop (uid : String) (probe : String → ProbeResult)
    (addRes : String → String → Option GoErr) :
    List (String × String) → List Call × List (String × Nat) × Option GoErr
  | [] => ([], [], none)
  | (assetID, remotePathOriginal) :: rest =>
    let r := probe remotePathOriginal
    let originalLength := if r.originalLength < 131072 then 131072 else r.originalLength
    let lowLength := if r.lowLength < 131072 then 131072 else r.lowLength
    match r.err with
    | some e => ([Call.filesizes remotePathOriginal], [], some e)
    | none =>
      let calls := [Call.filesizes remotePathOriginal,
        Call.addPathForOriginalAsset uid assetID remotePathOriginal
          ((originalLength + lowLength) % 2 ^ 64)]
      match addRes assetID remotePathOriginal with
      | some e => (calls, [], some e)
      | none =>
        let out := patchOriginalPathsLoop uid probe addRes rest
        (calls ++ out.1, (assetID, originalLength + lowLength) :: out.2.1, out.2.2)

/-- Outcome of a metadata-store query in the Go error idiom: a value, the
io.EOF no-data sentinel, or a fault. -/
inductive StoreOutcome (α : Type) where
  | ok (val : α)
  | eof
  | fault (e : GoErr)
deriving Repr, DecidableEq

/-- Model of amendGroupSharedAssets (src/server.go:1097-1168), from the
decoded request: uid is the verified subject, groupIDValid the result of the
uuid parse of the groupID route parameter. mutRes answers the share or
unshare mutation; on mutation success the handler looks up the group members
(groupUsers; a no-data answer returns early, a fault leaves a nil map, hence
zero user ids) and notifies them, ignoring the delivery outcome beyond
logging. -/
def amendGroupSharedAssets (uid groupID : String) (groupIDValid : Bool)
    (assetKeys assetIDs : List String) (share : Bool)
    (mutRes : Option GoErr)
    (groupUsers : StoreOutcome (List String)) : Response × List Call :=
  let r0 := Response.empty
  if ¬groupIDValid then
    ((r0.writeHeader statusBadRequest).write "Invalid UUID string for Group ID", [])
  else if assetIDs.length = 0 then
    ((r0.writeHeader statusBadRequest).write "No asset ids provided for request", [])
  else if share ∧ (assetKeys.length = 0 ∨ assetIDs.length ≠ assetKeys.length) then
    ((r0.writeHeader statusBadRequest).write "No asset keys provided for request", [])
  else
    let mutCall := if share then Call.shareAssets uid groupID assetIDs assetKeys
      else Call.unshareAssets uid groupID assetIDs
    match mutRes with
    | some _ => (r0.writeHeader statusInternalServerError, [mutCall])
    | none =>
      let r1 := r0.writeHeader statusOK
      let kind := if share then "AssetsAddedToGroupByUser" else "AssetsChangedForGroup"
      match groupUsers with
      | StoreOutcome.eof => (r1, [mutCall, Call.getUsersInGroup uid groupID])
      | StoreOutcome.ok users =>
        (r1, [mutCall, Call.getUsersInGroup uid groupID, Call.notify users kind])
      | StoreOutcome.fault _ =>
        (r1, [mutCall, Call.getUsersInGroup uid groupID, Call.notify [] kind])

/-- Model of getUsersFromAddressable (src/server.go:637-677), from the
decoded payload. The GetPublicInfoForUsers answer is storeRes: the matched
users with the unmatched identifiers, a no-data sentinel, or a fault; JSON
marshalling is modelled as always succeeding, with marshal rendering the
result. As in the source, the all-empty validation branch writes the 400
response but does not return, so the store is still consulted, and any
header written afterwards is superfluous. -/
def getUsersFromAddressable (uuids numbers emails : List String)
    (storeRes : StoreOutcome (List (String × String) × List String))
    (marshal : List (String × String) × List String → String) : Response × List Call :=
  let r0 := Response.empty
  let r1 := if uuids.length = 0 ∧ numbers.length = 0 ∧ emails.length = 0 then
      (r0.writeHeader statusBadRequest).write "No addresses provided"
    else r0
  let calls := [Call.getPublicInfoForUsers uuids numbers emails]
  match storeRes with
  | StoreOutcome.ok v => ((r1.writeHeader statusOK).write (marshal v), calls)
  | StoreOutcome.eof => (r1.writeHeader statusNoContent, calls)
  | StoreOutcome.fault _ => (r1.writeHeader statusInternalServerError, calls)

/-- ASCII uppercase conversion of one character: the restriction of Go
strings.ToUpper used on the header prefix (the header is modelled as a
sequence of ASCII characters, for which Go byte indexing and character
indexing coincide). -/
def upperAscii (c : Char) : Char :=
  if 'a' ≤ c ∧ c ≤ 'z' then Char.ofNat (c.toNat - 32) else c

/-- Model of RawOIDCTokenFromHeader (src/auth/oidc.go:21-27) over the
characters of the Authorization header value: accepted when the header is
longer than 7 and its first six characters uppercase to BEARER, returning
everything from index 7 on. -/
def rawOIDCTokenFromHeader (bearer : List Char) : Option (List Char) :=
  if bearer.length > 7 ∧ (bearer.take 6).map upperAscii = "BEARER".toList then
    some (bearer.drop 7)
  else none

/-- Spec-side reading of case-insensitive equality: same length and equal
characters position by position, up to ASCII case. -/
def eqCaseInsensitiveAscii : List Char → List Char → Bool
  | [], [] => true
  | x :: xs, y :: ys => (upperAscii x == upperAscii y) && eqCaseInsensitiveAscii xs ys
  | _, _ => false

/-- First split of a character list at a separator: none when the separator
does not occur, otherwise the part before the first occurrence paired with
the part after it. -/
def splitFirst (sep : Char) : List Char → Option (List Char × List Char)
  | [] => none
  | c :: rest =>
    if c = sep then some ([], rest)
    else
      match splitFirst sep rest with
      | none => none
      | some (before, after) => some (c :: before, after)

/-- Go strings.SplitN with a single-character separator and positive n: at
most n pieces, the last piece carrying the unsplit remainder (n = 0, which
the source never passes, gives the empty list as in Go). -/
def goSplitN (sep : Char) : Nat → List Char → List (List Char)
  | 0, _ => []
  | 1, s => [s]
  | n + 2, s =>
    match splitFirst sep s with
    | none => [s]
    | some (before, after) => before :: goSplitN sep (n + 1) after

/-- Left-to-right replacement of every non-overlapping occurrence, with an
explicit fuel bound so the recursion is structural (at each step the input
shrinks by at least one character, so fuel equal to the input length always
suffices and the fuel-exhausted branch is unreachable). -/
def goReplaceAllFuel (old repl : List Char) : Nat → List Char → List Char
  | _, [] => []
  | 0, s => s
  | fuel + 1, c :: rest =>
    if old ≠ [] ∧ old.isPrefixOf (c :: rest) then
      repl ++ goReplaceAllFuel old repl fuel ((c :: rest).drop old.length)
    else c :: goReplaceAllFuel old repl fuel rest

/-- Go strings.Replace(s, old, repl, -1) for nonempty old: every
non-overlapping occurrence is replaced, scanning left to right (for an empty
old, which the source never passes, the input is returned unchanged). -/
def goReplaceAll (old repl s : List Char) : List Char :=
  goReplaceAllFuel old repl s.length s

def origMarker : List Char := "_original".toList

def lowMarker : List Char := "_low".toList

/-- The (bucket, key) parse performed by Filesizes (src/storage/aws.go:62-64):
SplitN of the url path on slash with n = 3, then the pieces at indices 1 and
2; none models the index-out-of-range panic when the path holds fewer than
two slashes. -/
def filesizesParse (path : List Char) : Option (List Char × List Char) :=
  match goSplitN '/' 3 path with
  | _ :: bucket :: keyOriginal :: _ => some (bucket, keyOriginal)
  | _ => none

/-- The (bucket, key) parse performed per locator by Delete
(src/storage/aws.go:103-105), transliterated separately so the two paths can
be compared. -/
def deleteParse (path : List Char) : Option (List Char × List Char) :=
  match goSplitN '/' 3 path with
  | _ :: bucket :: key :: _ => some (bucket, key)
  | _ => none

/-- The (container, key) pairs probed by Filesizes (src/storage/aws.go:62-89):
the parsed original key together with the low key derived from it by the
literal substring replacement of _original with _low. -/
def filesizesPairs (path : List Char) : Option (List (List Char × List Char)) :=
  match filesizesParse path with
  | none => none
  | some (bucket, keyOriginal) =>
    some [(bucket, keyOriginal), (bucket, goReplaceAll origMarker lowMarker keyOriginal)]

/-- One step of the bucket-grouping loop of Delete (src/storage/aws.go:107-113):
create the map entry for an unseen bucket, then append the object key to the
entry of its bucket; the Go map is modelled as an assoc list in
first-insertion order. -/
def groupInsert (acc : List (List Char × List (List Char))) (bucket key : List Char) :
    List (List Char × List (List Char)) :=
  if bucket ∈ acc.map Prod.fst then
    acc.map (fun entry => if entry.1 = bucket then (entry.1, entry.2 ++ [key]) else entry)
  else acc ++ [(bucket, [key])]

def deleteGroupAux : List (List Char) → List (List Char × List (List Char)) →
    Option (List (List Char × List (List Char)))
  | [], acc => some acc
  | p :: rest, acc =>
    match deleteParse p with
    | none => none
    | some (bucket, key) => deleteGroupAux rest (groupInsert acc bucket key)

/-- The bulk-delete requests Delete (src/storage/aws.go:94-131) issues for a
locator list: one (bucket, object keys) request per bucket map entry; none
models the parse-failure return. -/
def deleteGroupedRequests (paths : List (List Char)) :
    Option (List (List Char × List (List Char))) :=
  deleteGroupAux paths []

/-- All (container, key) pairs of a grouped request list. -/
def groupedPairs (reqs : List (List Char × List (List Char))) :
    List (List Char × List Char) :=
  reqs.flatMap (fun r => r.2.map (fun k => (r.1, k)))

/-- Model of deleteAssets (src/server.go:887-903): an empty id list is
rejected; the metadata-store delete runs first (dbRes carries the locators
removed, or a fault) and a fault aborts before any storage call; then the
storage delete runs on exactly the locators the store returned. -/
def deleteAssetsModel (uid : String) (assetIDs : List String)
    (dbRes : Except GoErr (List (List Char)))
    (storageRes : Option GoErr) : Nat × Option GoErr × List Call :=
  if assetIDs.length = 0 then (statusBadRequest, some "AssetIDs is empty", [])
  else
    match dbRes with
    | Except.error e =>
      (statusInternalServerError, some e, [Call.dbDeleteAssets uid assetIDs])
    | Except.ok locs =>
      match storageRes with
      | some e => (statusInternalServerError, some e,
          [Call.dbDeleteAssets uid assetIDs, Call.storageDelete locs])
      | none => (statusOK, none,
          [Call.dbDeleteAssets uid assetIDs, Call.storageDelete locs])

/-- Parse of every locator path in order, failing as soon as one fails. -/
def parseAll : List (List Char) → Option (List (List Char × List Char))
  | [] => some []
  | p :: rest =>
    match deleteParse p, parseAll rest with
    | some bk, some tl => some (bk :: tl)
    | _, _ => none

/-- A probe answer used by concrete instances: both lengths zero, no error. -/
def probeZero : String → ProbeResult := fun _ => ⟨0, 0, none⟩

def assetZeroDims : Asset :=
  ⟨"a1", "photo", "remote/low", none, none, none, none, none, none, 0, 0, "m", "k"⟩

def assetWithOrig : Asset :=
  ⟨"a2", "photo", "remote/low", some "https://s3.example/bucket/k_original",
    none, none, none, none, none, 100, 100, "m", "k"⟩

def probeC2 : String → ProbeResult := fun _ => ⟨200000, 1000, none⟩

def assetNegDim : Asset :=
  ⟨"a3", "photo", "remote/low", none, none, none, none, none, none, -1, 1, "m", "k"⟩

def assetValidA : Asset :=
  ⟨"A1", "photo", "remote/lowA", none, none, none, none, none, none, 4032, 3024, "mA", "kA"⟩

def assetBadB : Asset :=
  ⟨"B1", "photo", "remote/lowB", none, none, none, none, none, none, 0, 3024, "mB", "kB"⟩

def pathOrig : List Char := "/bucket/photo_original".toList

def locsW : List (List Char) :=
  ["/bucketA/k1_original".toList, "/bucketA/k1_low".toList, "/bucketB/k2_low".toList]

def pairsW : List (List Char × List Char) :=
  [("bucketA".toList, "k1_original".toList), ("bucketA".toList, "k1_low".toList),
    ("bucketB".toList, "k2_low".toList)]

/-- Every successful Filesizes probe reports lengths below 2 ^ 63, because the
content lengths arrive as int64 values and negatives are rejected. -/
lemma filesizesLengths_bounds (origCL lowCL : Int)
    (ho : origCL < 2 ^ 63) (hl : lowCL < 2 ^ 63)
    (hok : (filesizesLengths origCL lowCL).err = none) :
    (filesizesLengths origCL lowCL).originalLength < 2 ^ 63 ∧
    (filesizesLengths origCL lowCL).lowLength < 2 ^ 63 := by
  unfold filesizesLengths at hok ⊢
  split_ifs at hok ⊢ with h1 h2
  show origCL.toNat < 2 ^ 63 ∧ lowCL.toNat < 2 ^ 63
  omega

lemma floor_eq_max (o : Nat) : (if o < 131072 then 131072 else o) = max o 131072 := by
  split <;> omega

lemma eqCaseInsensitiveAscii_iff_map (xs ys : List Char) :
    eqCaseInsensitiveAscii xs ys = true ↔ xs.map upperAscii = ys.map upperAscii := by
  induction xs generalizing ys with
  | nil => cases ys <;> simp [eqCaseInsensitiveAscii]
  | cons x xs ih => cases ys <;> simp [eqCaseInsensitiveAscii, ih]

lemma groupedPairs_append (a b : List (List Char × List (List Char))) :
    groupedPairs (a ++ b) = groupedPairs a ++ groupedPairs b := by
  simp [groupedPairs]

lemma groupInsert_fst (acc : List (List Char × List (List Char))) (bucket key : List Char) :
    (groupInsert acc bucket key).map Prod.fst =
      if bucket ∈ acc.map Prod.fst then acc.map Prod.fst
      else acc.map Prod.fst ++ [bucket] := by
  unfold groupInsert
  split_ifs with h
  · rw [List.map_map]
    congr 1
    funext entry
    by_cases he : entry.1 = bucket <;> simp [he]
  · simp

lemma groupInsert_nodup (acc : List (List Char × List (List Char)))
    (bucket key : List Char) (h : (acc.map Prod.fst).Nodup) :
    ((groupInsert acc bucket key).map Prod.fst).Nodup := by
  rw [groupInsert_fst]
  split_ifs with hmem
  · exact h
  · rw [List.nodup_append]
    refine ⟨h, List.nodup_singleton _, ?_⟩
    intro a ha hb
    rw [List.mem_singleton] at hb
    subst hb
    exact hmem ha

lemma map_update_eq_self (tl : List (List Char × List (List Char)))
    (bucket key : List Char) (h : bucket ∉ tl.map Prod.fst) :
    tl.map (fun entry => if entry.1 = bucket then (entry.1, entry.2 ++ [key]) else entry)
      = tl := by
  induction tl with
  | nil => rfl
  | cons e tl ih =>
    rw [List.map_cons]
    have h1 : e.1 ≠ bucket := by
      intro heq
      apply h
      rw [List.map_cons, heq]
      exact List.mem_cons_self _ _
    have h2 : bucket ∉ tl.map Prod.fst := by
      intro hmem
      exact h (by rw [List.map_cons]; exact List.mem_cons_of_mem _ hmem)
    rw [if_neg h1, ih h2]

lemma groupedPairs_update (tl : List (List Char × List (List Char)))
    (bucket key : List Char)
    (hnd : (tl.map Prod.fst).Nodup) (hmem : bucket ∈ tl.map Prod.fst) :
    (groupedPairs (tl.map
        (fun entry => if entry.1 = bucket then (entry.1, entry.2 ++ [key]) else entry))).Perm
      (groupedPairs tl ++ [(bucket, key)]) := by
  induction tl with
  | nil => simp at hmem
  | cons e tl ih =>
    rw [List.map_cons] at hnd
    have hnd' : (tl.map Prod.fst).Nodup := (List.nodup_cons.mp hnd).2
    have hhead : e.1 ∉ tl.map Prod.fst := (List.nodup_cons.mp hnd).1
    rw [List.map_cons]
    by_cases he : e.1 = bucket
    · rw [if_pos he]
      rw [map_update_eq_self tl bucket key (he ▸ hhead)]
      subst he
      have lhs_eq : groupedPairs ((e.1, e.2 ++ [key]) :: tl) =
          (e.2.map fun k => (e.1, k)) ++ ([(e.1, key)] ++ groupedPairs tl) := by
        simp [groupedPairs]
      have rhs_eq : groupedPairs (e :: tl) ++ [(e.1, key)] =
          (e.2.map fun k => (e.1, k)) ++ (groupedPairs tl ++ [(e.1, key)]) := by
        simp [groupedPairs]
      rw [lhs_eq, rhs_eq]
      exact List.Perm.append_left _ List.perm_append_comm
    · rw [if_neg he]
      have hmem' : bucket ∈ tl.map Prod.fst := by
        rw [List.map_cons, List.mem_cons] at hmem
        rcases hmem with h' | h'
        · exact absurd h'.symm he
        · exact h'
      have lhs_eq : groupedPairs (e :: tl.map
            (fun entry => if entry.1 = bucket then (entry.1, entry.2 ++ [key]) else entry)) =
          (e.2.map fun k => (e.1, k)) ++ groupedPairs (tl.map
            (fun entry => if entry.1 = bucket then (entry.1, entry.2 ++ [key]) else entry)) := by
        simp [groupedPairs]
      have rhs_eq : groupedPairs (e :: tl) ++ [(bucket, key)] =
          (e.2.map fun k => (e.1, k)) ++ (groupedPairs tl ++ [(bucket, key)]) := by
        simp [groupedPairs]
      rw [lhs_eq, rhs_eq]
      exact List.Perm.append_left _ (ih hnd' hmem')

lemma groupedPairs_groupInsert (acc : List (List Char × List (List Char)))
    (bucket key : List Char) (h : (acc.map Prod.fst).Nodup) :
    (groupedPairs (groupInsert acc bucket key)).Perm
      (groupedPairs acc ++ [(bucket, key)]) := by
  unfold groupInsert
  split_ifs with hmem
  · exact groupedPairs_update acc bucket key h hmem
  · rw [groupedPairs_append]
    simp [groupedPairs]

lemma deleteGroupAux_spec (paths : List (List Char))
    (pairs : List (List Char × List Char))
    (acc : List (List Char × List (List Char)))
    (hacc : (acc.map Prod.fst).Nodup)
    (hparse : parseAll paths = some pairs) :
    ∃ reqs, deleteGroupAux paths acc = some reqs ∧
      (reqs.map Prod.fst).Nodup ∧
      (groupedPairs reqs).Perm (groupedPairs acc ++ pairs) := by
  induction paths generalizing acc pairs with
  | nil =>
    unfold parseAll at hparse
    obtain rfl : ([] : List (List Char × List Char)) = pairs := by
      simpa using hparse
    exact ⟨acc, rfl, hacc, by simp⟩
  | cons p rest ih =>
    unfold parseAll at hparse
    cases hp : deleteParse p with
    | none => rw [hp] at hparse; cases hparse
    | some bk =>
      cases hrest : parseAll rest with
      | none => rw [hp, hrest] at hparse; cases hparse
      | some pairs' =>
        rw [hp, hrest] at hparse
        have hpairs : pairs = bk :: pairs' := by
          simpa using hparse.symm
        obtain ⟨bucket, k⟩ := bk
        have step : deleteGroupAux (p :: rest) acc =
            deleteGroupAux rest (groupInsert acc bucket k) := by
          show (match deleteParse p with
            | none => none
            | some (bucket, key) => deleteGroupAux rest (groupInsert acc bucket key)) =
              deleteGroupAux rest (groupInsert acc bucket k)
          rw [hp]
        obtain ⟨reqs, h1, h2, h3⟩ :=
          ih pairs' (groupInsert acc bucket k) (groupInsert_nodup _ _ _ hacc) hrest
        refine ⟨reqs, step.trans h1, h2, ?_⟩
        have heq : (groupedPairs acc ++ [(bucket, k)]) ++ pairs' =
            groupedPairs acc ++ pairs := by
          rw [hpairs]
          simp
        exact h3.trans (heq ▸ ((groupedPairs_groupInsert acc bucket k hacc).append_right pairs'))

/-- C8: an asset creation with pixel width or pixel height equal to zero fails
with the validation classification (HTTP 400, an error value) and issues no
storage probe and no metadata-store call at all. -/
theorem create_zero_dims_no_external_calls
    (a : Asset) (uid : String) (probe : String → ProbeResult) (createRes : Option GoErr)
    (h : a.pixelWidth = 0 ∨ a.pixelHeight = 0) :
    (createSingleAsset a uid probe createRes).httpStatus = statusBadRequest ∧
    (createSingleAsset a uid probe createRes).err.isSome ∧
    (createSingleAsset a uid probe createRes).calls = [] := by
  unfold createSingleAsset
  cases hv : validateArgsNotZero [a.assetID, a.remotePath, a.key] with
  | none => simp [if_pos h]
  | some e => simp

theorem create_zero_dims_no_external_calls_witness :
    (createSingleAsset assetZeroDims "owner" probeZero none).httpStatus = statusBadRequest ∧
    (createSingleAsset assetZeroDims "owner" probeZero none).err.isSome ∧
    (createSingleAsset assetZeroDims "owner" probeZero none).calls = [] :=
  create_zero_dims_no_external_calls assetZeroDims "owner" probeZero none (Or.inl rfl)

/-- C2: a valid asset creation with an original-representation path whose
probe succeeds with lengths o and l reports total size
max(o, 131072) + max(l, 131072) to the caller, with HTTP 201. The bounds on
o and l hold for every successful probe (filesizesLengths_bounds): the
lengths are uint64 conversions of nonnegative int64 values. -/
theorem create_reports_floored_sum
    (a : Asset) (uid p : String) (o l : Nat)
    (probe : String → ProbeResult)
    (hargs : validateArgsNotZero [a.assetID, a.remotePath, a.key] = none)
    (hdims : ¬(a.pixelWidth = 0 ∨ a.pixelHeight = 0))
    (hpath : a.remotePathOrig = some p)
    (hprobe : probe p = ⟨o, l, none⟩)
    (ho : o < 2 ^ 63) (hl : l < 2 ^ 63) :
    (createSingleAsset a uid probe none).httpStatus = statusCreated ∧
    (createSingleAsset a uid probe none).totalsize =
      some (max o 131072 + max l 131072) := by
  have hsum : max o 131072 + max l 131072 < 2 ^ 64 := by
    have h1 : max o 131072 < 2 ^ 63 := by
      apply max_lt ho; norm_num
    have h2 : max l 131072 < 2 ^ 63 := by
      apply max_lt hl; norm_num
    omega
  simp only [createSingleAsset, hargs, hpath, if_neg hdims, hprobe, floor_eq_max,
    Nat.mod_eq_of_lt hsum]
  cases validateArgsNotZero [a.type] <;> simp

theorem create_reports_floored_sum_witness :
    (createSingleAsset assetWithOrig "owner" probeC2 none).httpStatus = statusCreated ∧
    (createSingleAsset assetWithOrig "owner" probeC2 none).totalsize =
      some (max 200000 131072 + max 1000 131072) :=
  create_reports_floored_sum assetWithOrig "owner" "https://s3.example/bucket/k_original"
    200000 1000 probeC2 rfl (by decide) rfl rfl (by norm_num) (by norm_num)

/-- C10: the pixel-dimension validation rejects only an exact zero: whenever
both dimensions are nonzero (so also for strictly negative values) a valid
creation proceeds and forwards the dimension values unchanged to the
metadata-store create call. -/
theorem pixel_check_zero_only_negatives_forwarded
    (a : Asset) (uid : String) (probe : String → ProbeResult)
    (hargs : validateArgsNotZero [a.assetID, a.remotePath, a.key] = none)
    (horig : a.remotePathOrig = none)
    (hw : a.pixelWidth ≠ 0) (hh : a.pixelHeight ≠ 0) :
    (createSingleAsset a uid probe none).httpStatus = statusCreated ∧
    ∃ t, (createSingleAsset a uid probe none).calls =
      [Call.createAsset uid a.assetID t a.remotePath a.createDate a.location a.duration
        a.originalFilename a.originalUTI a.pixelWidth a.pixelHeight a.md5 a.key none none] := by
  simp only [createSingleAsset, hargs, horig,
    if_neg (show ¬(a.pixelWidth = 0 ∨ a.pixelHeight = 0) by tauto)]
  cases htype : validateArgsNotZero [a.type] <;> simp [htype]

theorem pixel_check_zero_only_negatives_forwarded_witness :
    (createSingleAsset assetNegDim "owner" probeZero none).httpStatus = statusCreated ∧
    ∃ t, (createSingleAsset assetNegDim "owner" probeZero none).calls =
      [Call.createAsset "owner" assetNegDim.assetID t assetNegDim.remotePath
        assetNegDim.createDate assetNegDim.location assetNegDim.duration
        assetNegDim.originalFilename assetNegDim.originalUTI (-1) 1
        assetNegDim.md5 assetNegDim.key none none] := by
  have h := pixel_check_zero_only_negatives_forwarded assetNegDim "owner" probeZero
    rfl rfl (by decide) (by decide)
  exact h

/-- C7: a create-many batch is processed sequentially in list order; the
first failing item stops the batch, its failure classification is reported,
every item before it keeps exactly the external calls it made (its
metadata-store create included, with no rollback call of any kind), and no
item after it is processed. -/
theorem create_many_sequential_first_failure
    (uid : String) (probe : String → ProbeResult) (createRes : Asset → Option GoErr)
    (pre : List Asset) (bad : Asset) (post : List Asset) (e : GoErr)
    (hpre : ∀ a ∈ pre, (createSingleAsset a uid probe (createRes a)).err = none)
    (hbad : (createSingleAsset bad uid probe (createRes bad)).err = some e) :
    patchAssetsCreateLoop uid probe createRes (pre ++ bad :: post) =
      ((pre.map fun a => (createSingleAsset a uid probe (createRes a)).calls).flatten
         ++ (createSingleAsset bad uid probe (createRes bad)).calls,
       pre.filterMap (fun a => ((createSingleAsset a uid probe (createRes a)).totalsize).map
         fun n => (a.assetID, n)),
       some ((createSingleAsset bad uid probe (createRes bad)).httpStatus, e)) := by
  induction pre with
  | nil =>
    simp only [List.nil_append, patchAssetsCreateLoop, hbad]
    simp
  | cons a rest ih =>
    have ha := hpre a (List.mem_cons_self a rest)
    have hrest : ∀ x ∈ rest, (createSingleAsset x uid probe (createRes x)).err = none :=
      fun x hx => hpre x (List.mem_cons_of_mem a hx)
    simp only [List.cons_append, patchAssetsCreateLoop, ha, ih hrest]
    cases hts : (createSingleAsset a uid probe (createRes a)).totalsize <;>
      simp [hts, ih hrest]

theorem create_many_sequential_first_failure_witness :
    patchAssetsCreateLoop "owner" probeZero (fun _ => none) [assetValidA, assetBadB] =
      ([Call.createAsset "owner" "A1" "photo" "remote/lowA" none none none none none
          4032 3024 "mA" "kA" none none],
       [],
       some (statusBadRequest, "One of the Int args has a value of 0")) :=
  (create_many_sequential_first_failure "owner" probeZero (fun _ => none)
    [assetValidA] assetBadB [] "One of the Int args has a value of 0"
    (by intro x hx; rw [List.mem_singleton] at hx; subst hx; rfl)
    rfl).trans (by rfl)

/-- C1 (code bug, single-asset PUT side): with a valid asset id and path, a
probe that fails (returning 0, 0 and an error, as the aws client does) does
not stop putAssetRemotePathOriginal: the handler still invokes the
add-path-for-original-asset mutation, with the floored-from-zero size
131072 + 131072 = 262144, even though the 500 header was already written. -/
theorem put_original_probe_error_still_mutates :
    putAssetRemotePathOriginal "owner" "asset1" true "https://s3.example/bucket/k_original"
        (fun _ => ⟨0, 0, some "HeadObject failed"⟩) none =
      (⟨some statusInternalServerError, []⟩,
       [Call.filesizes "https://s3.example/bucket/k_original",
        Call.addPathForOriginalAsset "owner" "asset1"
          "https://s3.example/bucket/k_original" 262144]) := by
  rfl

/-- C5: a sharing request with share set, a non-empty asset id list and a
wrapped-key list of a different length (zero keys included) is rejected with
the validation classification (HTTP 400) and no external call at all: in
particular neither the share mutation nor the unshare mutation is invoked. -/
theorem share_key_mismatch_rejected_before_mutation
    (uid groupID : String) (groupIDValid : Bool)
    (assetKeys assetIDs : List String)
    (mutRes : Option GoErr) (groupUsers : StoreOutcome (List String))
    (hne : assetIDs ≠ [])
    (hlen : assetKeys.length ≠ assetIDs.length) :
    (amendGroupSharedAssets uid groupID groupIDValid assetKeys assetIDs true
        mutRes groupUsers).1.status = some statusBadRequest ∧
    (amendGroupSharedAssets uid groupID groupIDValid assetKeys assetIDs true
        mutRes groupUsers).2 = [] := by
  have hids : ¬assetIDs.length = 0 := by
    simpa [List.length_eq_zero] using hne
  have hcond : assetKeys.length = 0 ∨ assetIDs.length ≠ assetKeys.length := by
    by_cases h0 : assetKeys.length = 0
    · exact Or.inl h0
    · exact Or.inr fun h => hlen h.symm
  unfold amendGroupSharedAssets
  by_cases hg : groupIDValid = true
  · rw [if_neg (show ¬¬(groupIDValid = true) from not_not_intro hg),
      if_neg hids, if_pos (show (true = true) ∧ _ from ⟨rfl, hcond⟩)]
    exact ⟨rfl, rfl⟩
  · rw [if_pos hg]
    exact ⟨rfl, rfl⟩

theorem share_key_mismatch_rejected_before_mutation_witness :
    (amendGroupSharedAssets "owner" "g1" true ["wk1"] ["a1", "a2"] true
        none StoreOutcome.eof).1.status = some statusBadRequest ∧
    (amendGroupSharedAssets "owner" "g1" true ["wk1"] ["a1", "a2"] true
        none StoreOutcome.eof).2 = [] :=
  share_key_mismatch_rejected_before_mutation "owner" "g1" true ["wk1"] ["a1", "a2"]
    none StoreOutcome.eof (by simp) (by simp)

/-- C4 counterexample: resolving three empty lists, even when the store
replies with its no-data sentinel, is reported to the caller as HTTP 400
with the validation body, not as the no-content outcome the claim states. -/
theorem empty_contacts_reports_bad_request_cex :
    (getUsersFromAddressable [] [] [] StoreOutcome.eof (fun _ => "")).1.status
        = some statusBadRequest ∧
    some statusBadRequest ≠ some statusNoContent :=
  ⟨rfl, by decide⟩

/-- C4 amended: for three empty input lists the handler reports the
validation failure (HTTP 400, body starting with the validation message)
whatever the store replies: the validation branch writes the response but,
lacking a return, still consults the store once, whose outcome cannot change
the already-written status. -/
theorem empty_contacts_outcome_bad_request
    (storeRes : StoreOutcome (List (String × String) × List String))
    (marshal : List (String × String) × List String → String) :
    (getUsersFromAddressable [] [] [] storeRes marshal).1.status = some statusBadRequest ∧
    (getUsersFromAddressable [] [] [] storeRes marshal).1.body.head? =
      some "No addresses provided" ∧
    (getUsersFromAddressable [] [] [] storeRes marshal).2 =
      [Call.getPublicInfoForUsers [] [] []] := by
  cases storeRes <;> exact ⟨rfl, rfl, rfl⟩

theorem empty_contacts_outcome_bad_request_witness :
    (getUsersFromAddressable [] [] [] StoreOutcome.eof (fun _ => "")).1.status
        = some statusBadRequest ∧
    (getUsersFromAddressable [] [] [] StoreOutcome.eof (fun _ => "")).1.body.head? =
      some "No addresses provided" ∧
    (getUsersFromAddressable [] [] [] StoreOutcome.eof (fun _ => "")).2 =
      [Call.getPublicInfoForUsers [] [] []] :=
  empty_contacts_outcome_bad_request StoreOutcome.eof (fun _ => "")

/-- C9: bearer extraction succeeds exactly when the header value is longer
than 7 characters and its first six characters case-insensitively equal
Bearer; the separator position (index 6) is never checked and the returned
token is the suffix from index 7, so the header BearerXtok yields the token
tok. -/
theorem bearer_extraction_exact (bearer : List Char) :
    ((rawOIDCTokenFromHeader bearer).isSome ↔
      bearer.length > 7 ∧
        eqCaseInsensitiveAscii (bearer.take 6) ("Bearer".toList) = true) ∧
    (∀ t, rawOIDCTokenFromHeader bearer = some t → t = bearer.drop 7) ∧
    rawOIDCTokenFromHeader ("BearerXtok".toList) = some ("tok".toList) := by
  refine ⟨?_, ?_, by decide⟩
  · rw [eqCaseInsensitiveAscii_iff_map,
      show ("Bearer".toList).map upperAscii = "BEARER".toList by decide]
    unfold rawOIDCTokenFromHeader
    split_ifs with h
    · simpa using h
    · simpa using h
  · intro t ht
    unfold rawOIDCTokenFromHeader at ht
    split_ifs at ht
    simpa using ht.symm

theorem bearer_extraction_exact_witness :
    rawOIDCTokenFromHeader ("BearerXtok".toList) = some ("tok".toList) :=
  (bearer_extraction_exact ("BearerXtok".toList)).2.2

/-- C3 counterexample: for the locator path /bucket/photo_original the probe
path computes two (container, key) pairs, the parsed original key and the
derived low key, while the delete path extracts exactly the one parsed key
and never applies the derivation: the two paths do not compute the same
(container, key) pairs from the same locator. -/
theorem probe_delete_pairs_differ :
    filesizesPairs pathOrig =
      some [("bucket".toList, "photo_original".toList),
        ("bucket".toList, "photo_low".toList)] ∧
    deleteGroupedRequests [pathOrig] =
      some [("bucket".toList, ["photo_original".toList])] ∧
    groupedPairs [("bucket".toList, ["photo_original".toList])] ≠
      [("bucket".toList, "photo_original".toList),
        ("bucket".toList, "photo_low".toList)] :=
  ⟨by rfl, by rfl, by decide⟩

/-- C3 amended: both the size-probe path and the delete path parse a locator
path into the same (container, key) pair, and the probe path derives the low
key from the parsed key by the literal _original to _low substring
replacement; the delete path applies no derivation: from one locator it
submits exactly the parsed key. -/
theorem locator_parse_shared_derivation_probe_only
    (path bucket key : List Char)
    (h : deleteParse path = some (bucket, key)) :
    filesizesParse path = some (bucket, key) ∧
    filesizesPairs path =
      some [(bucket, key), (bucket, goReplaceAll origMarker lowMarker key)] ∧
    deleteGroupedRequests [path] = some [(bucket, [key])] := by
  have hfp : filesizesParse path = some (bucket, key) := by
    unfold deleteParse at h
    unfold filesizesParse
    exact h
  refine ⟨hfp, ?_, ?_⟩
  · unfold filesizesPairs
    rw [hfp]
  · show deleteGroupAux [path] [] = some [(bucket, [key])]
    show (match deleteParse path with
      | none => none
      | some (bucket, key) => deleteGroupAux [] (groupInsert [] bucket key)) =
        some [(bucket, [key])]
    rw [h]
    rfl

theorem locator_parse_shared_derivation_probe_only_witness :
    filesizesParse pathOrig = some ("bucket".toList, "photo_original".toList) ∧
    filesizesPairs pathOrig = some [("bucket".toList, "photo_original".toList),
      ("bucket".toList, goReplaceAll origMarker lowMarker "photo_original".toList)] ∧
    deleteGroupedRequests [pathOrig] =
      some [("bucket".toList, ["photo_original".toList])] :=
  locator_parse_shared_derivation_probe_only pathOrig
    "bucket".toList "photo_original".toList (by rfl)

/-- C6: a successful deletion submits to storage exactly the locators the
metadata store returned for the given ids: the handler passes that exact
list to the storage delete, and the storage delete parses every locator into
its (container, key) pair, uses each distinct container for exactly one bulk
request, and the (container, key) pairs across all requests are exactly (as
a multiset) the parsed locators. -/
theorem delete_assets_exact_grouping
    (uid : String) (assetIDs : List String) (locs : List (List Char))
    (pairs : List (List Char × List Char))
    (hids : assetIDs ≠ [])
    (hparse : parseAll locs = some pairs) :
    deleteAssetsModel uid assetIDs (Except.ok locs) none =
      (statusOK, none, [Call.dbDeleteAssets uid assetIDs, Call.storageDelete locs]) ∧
    ∃ reqs, deleteGroupedRequests locs = some reqs ∧
      (reqs.map Prod.fst).Nodup ∧
      (groupedPairs reqs).Perm pairs := by
  constructor
  · unfold deleteAssetsModel
    rw [if_neg (by simpa [List.length_eq_zero] using hids)]
  · obtain ⟨reqs, h1, h2, h3⟩ := deleteGroupAux_spec locs pairs [] (by simp) hparse
    exact ⟨reqs, h1, h2, by simpa [groupedPairs] using h3⟩

theorem delete_assets_exact_grouping_witness :
    deleteAssetsModel "owner" ["a1", "a2"] (Except.ok locsW) none =
      (statusOK, none, [Call.dbDeleteAssets "owner" ["a1", "a2"],
        Call.storageDelete locsW]) ∧
    ∃ reqs, deleteGroupedRequests locsW = some reqs ∧
      (reqs.map Prod.fst).Nodup ∧
      (groupedPairs reqs).Perm pairsW :=
  delete_assets_exact_grouping "owner" ["a1", "a2"] locsW pairsW
    (by simp) (by rfl)

end TripUp
